import Mathlib

/-!
Verification of the video-journal pipeline (Go) against its specification.

The Go program converts a video into a markdown blog post through three
stages: transcription (ffmpeg audio extraction + whisper.cpp), blog
generation (claude CLI), and a final file write.  We shallowly embed the
relevant Go functions: the filesystem becomes an explicit association list
of files plus a list of directories, external processes become oracle
outcomes supplied in an environment record, and every function threads the
filesystem state and a trace of the external process invocations it makes.

Sources embedded (newest variant of each duplicated Go file):
- `main.go` variant with extension/output validation (`main`, `run`,
  `validateOutputPath`),
- `internal/transcribe` variant with context timeouts (`TranscribeVideo`,
  `extractAudio`),
- `internal/blog/blog.go` (claude CLI variant: `ConvertToBlog`,
  `loadStyleGuide`, `buildPrompt`, `getDefaultStyleGuide`).
-/

deriving instance DecidableEq for Except

namespace VideoJournal

/-! ## Go string helpers

Models of the Go standard-library string functions the program uses.
Strings are treated as their character sequences; for the well-formed
UTF-8 strings Go manipulates here, byte-level and character-level
prefix/suffix operations agree.
-/

/-- Model of Go `unicode.IsSpace` restricted to the characters that can
occur in this pipeline's data (ASCII whitespace plus the two Latin-1
space characters Go also treats as space). -/
def goIsSpace (c : Char) : Bool :=
  c = ' ' || c = '\t' || c = '\n' || c = '\x0b' || c = '\x0c' || c = '\r' ||
  c = '\u0085' || c = ' '

/-- Model of Go `strings.TrimSpace`: drop leading and trailing whitespace. -/
def trimSpace (s : String) : String :=
  ⟨((s.data.dropWhile goIsSpace).reverse.dropWhile goIsSpace).reverse⟩

/-- Model of Go `strings.HasPrefix`. -/
def strStartsWith (s pre : String) : Bool :=
  pre.data.isPrefixOf s.data

/-- Model of Go `strings.HasSuffix`. -/
def strEndsWith (s suf : String) : Bool :=
  suf.data.isSuffixOf s.data

/-- Model of Go `strings.TrimSuffix`. -/
def trimSuffixStr (s suf : String) : String :=
  if strEndsWith s suf then ⟨s.data.take (s.data.length - suf.data.length)⟩ else s

/-- Model of Go `strings.ToLower` (the extensions checked are ASCII). -/
def toLowerStr (s : String) : String :=
  ⟨s.data.map Char.toLower⟩

/-! ## Go path helpers (`path/filepath`) -/

/-- Model of Go `filepath.Ext`: the suffix of the final path element
beginning at its final dot, empty if the final element has no dot.
The helper walks the reversed character list, accumulating charaters
until it meets a dot (extension found) or a separator (no extension). -/
def pathExtAux : List Char → List Char → List Char
  | _, [] => []
  | acc, c :: rest =>
    if c = '/' then []
    else if c = '.' then c :: acc
    else pathExtAux (c :: acc) rest

/-- Model of Go `filepath.Ext`. -/
def pathExt (p : String) : String :=
  ⟨pathExtAux [] p.data.reverse⟩

/-- Model of Go `filepath.Base`: trailing separators removed, then
everything up to and including the final separator removed; "" yields
".", an all-separator path yields "/". -/
def pathBase (p : String) : String :=
  if p = "" then "."
  else
    let cs := (p.data.reverse.dropWhile (fun c => c = '/')).reverse
    if cs.isEmpty then "/"
    else ⟨(cs.reverse.takeWhile (fun c => ¬ c = '/')).reverse⟩

/-- Splitting helper: the first argument accumulates the reversed
characters of the current element. -/
def splitComponentsAux : List Char → List Char → List String
  | acc, [] => [⟨acc.reverse⟩]
  | acc, c :: rest =>
    if c = '/' then ⟨acc.reverse⟩ :: splitComponentsAux [] rest
    else splitComponentsAux (c :: acc) rest

/-- Split a path on the separator (Go `strings.Split(p, "/")`), keeping
empty and dot elements for `cleanAbs` to process (model of reading a path
element-wise, as Go `filepath.Clean` does). -/
def splitComponents (p : String) : List String :=
  splitComponentsAux [] p.data

/-- Model of Go `filepath.Clean` on a rooted path, working on the list of
elements: empty and "." elements are dropped, ".." pops the previous
element (and cannot rise above the root). -/
def cleanAbs (cs : List String) : List String :=
  cs.foldl
    (fun acc c =>
      if c = "" then acc
      else if c = "." then acc
      else if c = ".." then acc.dropLast
      else acc ++ [c]) []

/-- Model of Go `filepath.Abs`: a rooted path is cleaned as is, a relative
path is joined onto the working directory first (`Join(cwd, p)` is
`Clean(cwd + "/" + p)`, whose element list is the concatenation of the two
element lists).  The result is the cleaned element list of the absolute
path. -/
def absComponents (cwd p : String) : List String :=
  if strStartsWith p "/" then cleanAbs (splitComponents p)
  else cleanAbs (splitComponents cwd ++ splitComponents p)

/-- Number of equal leading elements of two element lists (the common
ancestor computation inside Go `filepath.Rel`). -/
def commonPrefixLen : List String → List String → Nat
  | [], _ => 0
  | _, [] => 0
  | a :: as, b :: bs => if a = b then commonPrefixLen as bs + 1 else 0

/-- Model of Go `filepath.Rel` on two cleaned rooted element lists: one
".." element for every base element past the common ancestor, then the
remaining target elements. -/
def relComponents (base targ : List String) : List String :=
  let n := commonPrefixLen base targ
  List.replicate (base.length - n) ".." ++ targ.drop n

/-- Join path elements with "/" (rendering of a relative path). -/
def joinSlash : List String → String
  | [] => ""
  | [c] => c
  | c :: rest => c ++ "/" ++ joinSlash rest

/-- Render the element list `filepath.Rel` returns as the string Go
returns ("." for the empty list). -/
def renderRel (cs : List String) : String :=
  if cs.isEmpty then "." else joinSlash cs

/-- Render a cleaned rooted element list as an absolute path string
(the form `filepath.Dir` of an absolute path takes). -/
def renderAbs (cs : List String) : String :=
  "/" ++ joinSlash cs

/-! ## Filesystem model

Files are an association list from path to content; directories are a
list of paths.  `os.Stat` succeeding is modeled by `statExists` (a file
or a directory at the path). -/

structure FS where
  files : List (String × String)
  dirs : List String
deriving DecidableEq

/-- Model of `os.ReadFile`: the content at a path, `none` when the file
does not exist (`os.IsNotExist`); other read errors are not modeled. -/
def FS.read (fs : FS) (p : String) : Option String :=
  fs.files.lookup p

/-- Model of `os.WriteFile` / a process creating a file (always succeeds
in the model; the only write-failure path in the program is the final
`os.WriteFile`, whose filesystem-error branch no claim exercises). -/
def FS.writeFile (fs : FS) (p c : String) : FS :=
  { fs with files := (p, c) :: fs.files.filter (fun e => ¬ e.1 = p) }

/-- Model of `os.Remove` (ignoring its error, as the Go code does). -/
def FS.removeFile (fs : FS) (p : String) : FS :=
  { fs with files := fs.files.filter (fun e => ¬ e.1 = p) }

/-- A file exists at the path. -/
def FS.fileExists (fs : FS) (p : String) : Bool :=
  (fs.read p).isSome

/-- A directory exists at the path. -/
def FS.dirExists (fs : FS) (p : String) : Bool :=
  fs.dirs.contains p

/-- Model of `os.Stat` succeeding: a file or directory exists at the path. -/
def FS.statExists (fs : FS) (p : String) : Bool :=
  fs.fileExists p || fs.dirExists p

/-- The empty filesystem. -/
def FS.empty : FS := ⟨[], []⟩

theorem lookup_filter_ne (l : List (String × String)) (p q : String) :
    (l.filter (fun e => ¬ e.1 = p)).lookup q =
      if q = p then none else l.lookup q := by
  induction l with
  | nil => by_cases h : q = p <;> simp [h]
  | cons e rest ih =>
    by_cases he : e.1 = p
    · rw [List.filter_cons_of_neg (by simpa using he)]
      rw [ih]
      by_cases h : q = p
      · simp [h]
      · have hq : ¬ q = e.1 := fun hqe => h (hqe.trans he)
        simp [h, List.lookup, beq_eq_false_iff_ne.mpr hq]
    · rw [List.filter_cons_of_pos (by simpa using he)]
      by_cases hq : q = e.1
      · have h : ¬ q = p := fun hp => he (hq.symm.trans hp)
        rw [if_neg h]
        subst hq
        simp [List.lookup, beq_self_eq_true]
      · simp only [List.lookup, beq_eq_false_iff_ne.mpr hq]
        exact ih

theorem FS.read_writeFile (fs : FS) (p c q : String) :
    (fs.writeFile p c).read q = if q = p then some c else fs.read q := by
  unfold FS.writeFile FS.read
  by_cases h : q = p
  · simp [h, List.lookup, beq_self_eq_true]
  · simp only [List.lookup, beq_eq_false_iff_ne.mpr h]
    rw [lookup_filter_ne, if_neg h, if_neg h]

theorem FS.read_removeFile (fs : FS) (p q : String) :
    (fs.removeFile p).read q = if q = p then none else fs.read q := by
  unfold FS.removeFile FS.read
  exact lookup_filter_ne fs.files p q

/-! ## External processes

Every external invocation the program makes goes through
`exec.CommandContext` with a timeout taken from a package constant.  A
`ProcCall` records one invocation: which tool, its argument list, and the
timeout (in minutes) of the context it ran under.  The outcome of each
invocation is an oracle supplied by the environment. -/

inductive Tool
  | ffmpeg
  | whisper
  | claude
deriving DecidableEq

structure ProcCall where
  tool : Tool
  args : List String
  timeoutMinutes : Nat
deriving DecidableEq

/-- Outcome of one external process run: success, failure with the
diagnostic text the Go code captures (stderr or combined output), or the
context deadline being exceeded. -/
inductive ProcOutcome
  | success
  | failed (diag : String)
  | timedOut
deriving DecidableEq

/-! ## Transcription (`internal/transcribe`, context-timeout variant) -/

/-- `FFmpegTimeout = 30 * time.Minute`. -/
def FFmpegTimeoutMinutes : Nat := 30

/-- `WhisperTimeout = 60 * time.Minute`. -/
def WhisperTimeoutMinutes : Nat := 60

/-- `MaxVideoSize = 10 * 1024 * 1024 * 1024`. -/
def MaxVideoSize : Nat := 10 * 1024 * 1024 * 1024

/-- Extensions whisper.cpp may produce, cleaned up unconditionally by
`cleanupWhisperOutputs`. -/
def whisperExtensions : List String :=
  [".txt", ".vtt", ".srt", ".json", ".csv", ".lrc"]

/-- Model of `ModelPath`: `filepath.Join(home, ".cache", "whisper",
"ggml-<size>.bin")`. -/
def ModelPath (home modelSize : String) : String :=
  home ++ "/.cache/whisper/ggml-" ++ modelSize ++ ".bin"

/-- Result of `os.Stat` on the input video. -/
inductive StatResult
  | notExists
  | accessError
  | statOk (size : Nat)
deriving DecidableEq

/-- The errors `TranscribeVideo` can return, one constructor per `return`
site in the Go source. -/
inductive TErr
  | videoNotFound (path : String)
  | videoAccessError
  | videoTooLarge (size : Nat)
  | modelNotFound (modelSize : String)
  | cliNotFound
  | ffmpegFailed (diag : String)
  | ffmpegTimedOut
  | whisperFailed (diag : String)
  | whisperTimedOut
  | readTranscriptFailed
  | noSpeech
deriving DecidableEq

/-- The error message of each `TErr`, following the Go `fmt.Errorf`
format strings (wrapped lower-level `%w` errors and remediation text are
abbreviated where no claim depends on them). -/
def TErr.message : TErr → String
  | .videoNotFound p => "video file not found: " ++ p
  | .videoAccessError => "cannot access video file"
  | .videoTooLarge n =>
      "video file too large: " ++ toString n ++ " bytes (max: " ++
        toString MaxVideoSize ++ " bytes)"
  | .modelNotFound m => "whisper model not found (model " ++ m ++ ")"
  | .cliNotFound => "whisper.cpp CLI not found"
  | .ffmpegFailed d =>
      "ffmpeg audio extraction failed: " ++ d ++ "\nMake sure ffmpeg is installed"
  | .ffmpegTimedOut => "ffmpeg audio extraction timed out after 30m0s"
  | .whisperFailed d => "whisper transcription failed\nOutput: " ++ d
  | .whisperTimedOut => "whisper transcription timed out after 1h0m0s"
  | .readTranscriptFailed => "failed to read transcript"
  | .noSpeech => "no speech detected in video"

/-- Environment for one `TranscribeVideo` call: the `os.Stat` result on
the video, whether the whisper model file exists, the resolved whisper
CLI path if found, the user home directory, the two fresh names
`os.CreateTemp` picks, the oracle outcomes of the two external processes,
and the `(extension, content)` files whisper writes on success. -/
structure TEnv where
  videoStat : StatResult
  modelExists : Bool
  whisperCLI : Option String
  home : String
  audioTempPath : String
  outputBase : String
  ffmpegOutcome : ProcOutcome
  whisperOutcome : ProcOutcome
  whisperOutputs : List (String × String)
deriving DecidableEq

/-- The ffmpeg argument list built in `extractAudio`. -/
def ffmpegArgs (videoPath audioPath : String) : List String :=
  ["-y", "-i", videoPath, "-ar", "16000", "-ac", "1", "-c:a", "pcm_s16le", audioPath]

/-- The whisper.cpp argument list built in `TranscribeVideo`. -/
def whisperArgs (modelPath audioPath outputBase : String) : List String :=
  ["-m", modelPath, "-f", audioPath, "-otxt", "-of", outputBase, "--no-timestamps"]

/-- Model of `extractAudio`: `os.CreateTemp` creates the audio file, then
ffmpeg runs under the 30-minute context; on any failure the local
`cleanup` removes the audio file before returning, distinguishing the
deadline-exceeded case.  On success ffmpeg has filled the audio file and
the caller owns the cleanup. -/
def extractAudio (videoPath : String) (env : TEnv) (fs : FS) :
    Except TErr String × FS × List ProcCall :=
  let audioPath := env.audioTempPath
  let fs1 := fs.writeFile audioPath ""
  let call : ProcCall :=
    ⟨.ffmpeg, ffmpegArgs videoPath audioPath, FFmpegTimeoutMinutes⟩
  match env.ffmpegOutcome with
  | .success => (.ok audioPath, fs1.writeFile audioPath "PCM-WAV", [call])
  | .failed d => (.error (.ffmpegFailed d), fs1.removeFile audioPath, [call])
  | .timedOut => (.error .ffmpegTimedOut, fs1.removeFile audioPath, [call])

/-- Model of the deferred `cleanupWhisperOutputs` closure: remove every
whisper output extension variant of the output base. -/
def cleanupWhisperOutputs (outputBase : String) (fs : FS) : FS :=
  whisperExtensions.foldl (fun acc ext => acc.removeFile (outputBase ++ ext)) fs

/-- Model of `TranscribeVideo` (context-timeout variant).  Mirrors the Go
control flow: stat checks, model and CLI lookup, audio extraction, the
placeholder temp file for the whisper output prefix (created then
immediately removed), the whisper run under the 60-minute context, the
transcript read and the empty-after-trim check.  The two deferred
cleanups (whisper output variants, then the audio file) are applied on
every return path past their registration points. -/
def TranscribeVideo (videoPath modelSize : String) (env : TEnv) (fs : FS) :
    Except TErr String × FS × List ProcCall :=
  match env.videoStat with
  | .notExists => (.error (.videoNotFound videoPath), fs, [])
  | .accessError => (.error .videoAccessError, fs, [])
  | .statOk size =>
    if size > MaxVideoSize then (.error (.videoTooLarge size), fs, [])
    else if ¬ env.modelExists then (.error (.modelNotFound modelSize), fs, [])
    else
      match env.whisperCLI with
      | none => (.error .cliNotFound, fs, [])
      | some _ =>
        match extractAudio videoPath env fs with
        | (.error e, fs1, tr) => (.error e, fs1, tr)
        | (.ok audioPath, fs1, tr) =>
          let fs2 := (fs1.writeFile env.outputBase "").removeFile env.outputBase
          let call : ProcCall :=
            ⟨.whisper, whisperArgs (ModelPath env.home modelSize) audioPath env.outputBase,
              WhisperTimeoutMinutes⟩
          let finish := fun (fsx : FS) =>
            (cleanupWhisperOutputs env.outputBase fsx).removeFile audioPath
          match env.whisperOutcome with
          | .timedOut => (.error .whisperTimedOut, finish fs2, tr ++ [call])
          | .failed d => (.error (.whisperFailed d), finish fs2, tr ++ [call])
          | .success =>
            let fs3 := env.whisperOutputs.foldl
              (fun acc e => acc.writeFile (env.outputBase ++ e.1) e.2) fs2
            match fs3.read (env.outputBase ++ ".txt") with
            | none => (.error .readTranscriptFailed, finish fs3, tr ++ [call])
            | some t =>
              let result := trimSpace t
              if result = "" then (.error .noSpeech, finish fs3, tr ++ [call])
              else (.ok result, finish fs3, tr ++ [call])

/-! ## Blog generation (`internal/blog/blog.go`, claude-CLI variant) -/

/-- `ClaudeTimeout = 10 * time.Minute`. -/
def ClaudeTimeoutMinutes : Nat := 10

/-- `MaxTranscriptSize = 500000`. -/
def MaxTranscriptSize : Nat := 500000

/-- The errors `ConvertToBlog` (and its helper `loadStyleGuide`) can
return, one constructor per `return` site in the Go source. -/
inductive BErr
  | transcriptTooLarge (size : Nat)
  | styleGuideNotFound (path : String)
  | claudeTimedOut
  | claudeExitError (stderr : String)
  | claudeStartError
  | emptyOutput
deriving DecidableEq

/-- The error message of each `BErr`, following the Go `fmt.Errorf`
format strings. -/
def BErr.message : BErr → String
  | .transcriptTooLarge n =>
      "transcript too large: " ++ toString n ++ " bytes (max: " ++
        toString MaxTranscriptSize ++ " bytes)"
  | .styleGuideNotFound p => "style guide not found: " ++ p
  | .claudeTimedOut => "claude CLI timed out after 10m0s"
  | .claudeExitError s => "claude CLI error\nstderr: " ++ s
  | .claudeStartError => "claude CLI error"
  | .emptyOutput => "claude CLI returned empty output"

/-- Outcome of the claude CLI invocation (`cmd.Output()`): context
deadline exceeded, non-zero exit with captured stderr, failure to start
the process at all (any other `err`), or success with captured stdout. -/
inductive ClaudeOutcome
  | timedOut
  | exitError (stderr : String)
  | startError
  | success (stdout : String)
deriving DecidableEq

/-- Environment for one `ConvertToBlog` call. -/
structure BEnv where
  claudeOutcome : ClaudeOutcome
deriving DecidableEq

/-- The built-in default style guide returned by `getDefaultStyleGuide`. -/
def getDefaultStyleGuide : String :=
  "Write in a conversational, engaging tone.\nUse clear headings to organize the content.\nInclude practical takeaways where relevant.\nKeep paragraphs short and scannable.\nUse active voice."

/-- Model of `loadStyleGuide`: empty path yields the default; a missing
file yields the default silently only when the path is the conventional
"style_guide.md", and a hard error otherwise.  (Read errors other than
non-existence are not modeled; see `FS.read`.) -/
def loadStyleGuide (path : String) (fs : FS) : Except BErr String :=
  if path = "" then .ok getDefaultStyleGuide
  else
    match fs.read path with
    | none =>
      if path = "style_guide.md" then .ok getDefaultStyleGuide
      else .error (.styleGuideNotFound path)
    | some data => .ok data

/-- Model of `buildPrompt`: the fixed `fmt.Sprintf` template with the
style guide and transcript substituted verbatim. -/
def buildPrompt (transcript styleGuide : String) : String :=
  "Convert the following video transcript into a well-structured blog post.\n\n## Style Guide\n"
    ++ styleGuide ++
  "\n\n## Instructions\n1. Create an engaging title that captures the main topic\n2. Write a brief introduction that hooks the reader\n3. Organize the main content with clear headings\n4. Preserve the key insights and examples from the transcript\n5. Add a conclusion with key takeaways\n6. Output the blog post in markdown format\n7. Do not include phrases like \"In this video\" - write as if it was always a blog post\n\n## Transcript\n"
    ++ transcript ++
  "\n\n## Blog Post (Markdown)"

/-- Model of `ConvertToBlog` (claude-CLI variant): transcript byte-size
ceiling, style-guide load, prompt build, the claude invocation under the
10-minute context with its four outcome branches, and the
empty-after-trim check on the captured stdout. -/
def ConvertToBlog (transcript styleGuidePath : String) (env : BEnv) (fs : FS) :
    Except BErr String × List ProcCall :=
  if transcript.utf8ByteSize > MaxTranscriptSize then
    (.error (.transcriptTooLarge transcript.utf8ByteSize), [])
  else
    match loadStyleGuide styleGuidePath fs with
    | .error e => (.error e, [])
    | .ok styleGuide =>
      let prompt := buildPrompt transcript styleGuide
      let call : ProcCall := ⟨.claude, ["-p", prompt], ClaudeTimeoutMinutes⟩
      match env.claudeOutcome with
      | .timedOut => (.error .claudeTimedOut, [call])
      | .exitError s => (.error (.claudeExitError s), [call])
      | .startError => (.error .claudeStartError, [call])
      | .success o =>
        let result := trimSpace o
        if result = "" then (.error .emptyOutput, [call])
        else (.ok result, [call])

/-! ## Orchestrator (`main.go`, validation variant) -/

/-- Stage-labeled pipeline errors returned by `run`. -/
inductive RErr
  | transcription (e : TErr)
  | blogConversion (e : BErr)
  | emptyBlog
deriving DecidableEq

/-- The error message of each `RErr` (stage label wrapping, plus the
standalone empty-blog check in `run`). -/
def RErr.message : RErr → String
  | .transcription e => "transcription failed: " ++ e.message
  | .blogConversion e => "blog conversion failed: " ++ e.message
  | .emptyBlog => "generated blog post is empty"

/-- Model of `run`: transcribe, convert, trim-and-reject-empty, then
write the blog post with a trailing newline to the output path. -/
def run (videoPath modelSize stylePath outputPath : String)
    (tenv : TEnv) (benv : BEnv) (fs : FS) :
    Except RErr Unit × FS × List ProcCall :=
  match TranscribeVideo videoPath modelSize tenv fs with
  | (.error e, fs1, tr) => (.error (.transcription e), fs1, tr)
  | (.ok transcript, fs1, tr) =>
    match ConvertToBlog transcript stylePath benv fs1 with
    | (.error e, tr2) => (.error (.blogConversion e), fs1, tr ++ tr2)
    | (.ok blogPost, tr2) =>
      let b := trimSpace blogPost
      if b = "" then (.error .emptyBlog, fs1, tr ++ tr2)
      else (.ok (), fs1.writeFile outputPath (b ++ "\n"), tr ++ tr2)

/-- The parsed command line after `flag.Parse()`: the positional video
path and the four flags with their defaults already applied by the flag
package (`--model` defaults to "base", `--style` to "style_guide.md",
`--output` to "", `--force` to false). -/
structure CLI where
  videoPath : String
  model : String
  style : String
  output : String
  force : Bool
deriving DecidableEq

/-- The errors `validateOutputPath` can return. -/
inductive VErr
  | traversal (p : String)
  | parentMissing (dir : String)
deriving DecidableEq

/-- The error message of each `VErr`. -/
def VErr.message : VErr → String
  | .traversal p =>
      "output path must be within current directory (no path traversal): " ++ p
  | .parentMissing d => "output directory does not exist: " ++ d

/-- Model of `validateOutputPath`: resolve the output path against the
working directory, reject when the rendering of the path relative to the
working directory begins with "..", then require `os.Stat` to succeed on
the parent directory of the absolute path. -/
def validateOutputPath (cwd : String) (fs : FS) (outputPath : String) :
    Except VErr Unit :=
  let absC := absComponents cwd outputPath
  let cwdC := cleanAbs (splitComponents cwd)
  let rel := renderRel (relComponents cwdC absC)
  if strStartsWith rel ".." then .error (.traversal outputPath)
  else
    let parentDir := renderAbs absC.dropLast
    if fs.statExists parentDir then .ok ()
    else .error (.parentMissing parentDir)

/-- `validVideoExtensions` from `main.go`. -/
def validVideoExtensions : List String :=
  [".mp4", ".mov", ".avi", ".mkv", ".webm", ".m4v", ".wmv", ".flv"]

/-- `ValidModels` from `internal/transcribe`. -/
def ValidModels : List String :=
  ["tiny", "base", "small", "medium", "large"]

/-- The default output path computed in `main` when `--output` is empty:
the base name of the video path with its extension replaced by ".md". -/
def defaultOutputPath (videoPath : String) : String :=
  let baseName := pathBase videoPath
  let vidExt := pathExt baseName
  let nameWithoutExt := trimSuffixStr baseName vidExt
  nameWithoutExt ++ ".md"

/-- The output path `main` resolves from the flags. -/
def resolvedOutputPath (cli : CLI) : String :=
  if cli.output = "" then defaultOutputPath cli.videoPath else cli.output

/-- The validation failures `main` can exit with (exit code 1), one
constructor per `os.Exit(1)` site after flag parsing. -/
inductive MainErr
  | unsupportedFormat (ext : String)
  | invalidModel (m : String)
  | invalidOutput (e : VErr)
  | outputExists (p : String)
  | pipelineFailed (e : RErr)
deriving DecidableEq

/-- The stderr message of each `MainErr`, following the Go
`fmt.Fprintf` format strings. -/
def MainErr.message : MainErr → String
  | .unsupportedFormat ext =>
      "unsupported video format '" ++ ext ++
        "'. Supported formats: mp4, mov, avi, mkv, webm, m4v, wmv, flv"
  | .invalidModel m =>
      "invalid model size '" ++ m ++ "'. Use: tiny, base, small, medium, or large"
  | .invalidOutput e => e.message
  | .outputExists p =>
      "output file already exists: " ++ p ++ "\nUse --force to overwrite"
  | .pipelineFailed e => e.message

/-- Model of `main` after flag parsing (validation variant): extension
allow-list, model allow-list, output path resolution, output path
validation, the overwrite check gated by `--force`, then the pipeline.
Returns `none` for exit code 0 and `some err` for exit code 1, together
with the final filesystem and the trace of external invocations. -/
def main (cli : CLI) (cwd : String) (tenv : TEnv) (benv : BEnv) (fs : FS) :
    Option MainErr × FS × List ProcCall :=
  let ext := toLowerStr (pathExt cli.videoPath)
  if ¬ validVideoExtensions.contains ext then
    (some (.unsupportedFormat ext), fs, [])
  else if ¬ ValidModels.contains cli.model then
    (some (.invalidModel cli.model), fs, [])
  else
    let outputPath := resolvedOutputPath cli
    match validateOutputPath cwd fs outputPath with
    | .error e => (some (.invalidOutput e), fs, [])
    | .ok _ =>
      if !cli.force && fs.statExists outputPath then
        (some (.outputExists outputPath), fs, [])
      else
        match run cli.videoPath cli.model cli.style outputPath tenv benv fs with
        | (.error e, fs1, tr) => (some (.pipelineFailed e), fs1, tr)
        | (.ok _, fs1, tr) => (none, fs1, tr)

/-! ## Claims -/

/-- Claim C1: for every style-guide path passed to the blog generation
step, an empty path yields the built-in default style guide; a missing
file at the conventional default path "style_guide.md" silently yields
the built-in default with no error; and a missing file at any other
explicitly supplied path yields a hard "style guide not found" error
(which `ConvertToBlog` propagates) rather than a fallback. -/
theorem c1_styleGuide_fallback_vs_error :
    (∀ fs : FS, loadStyleGuide "" fs = .ok getDefaultStyleGuide) ∧
    (∀ fs : FS, fs.read "style_guide.md" = none →
      loadStyleGuide "style_guide.md" fs = .ok getDefaultStyleGuide) ∧
    (∀ (fs : FS) (p : String), ¬ p = "" → ¬ p = "style_guide.md" →
      fs.read p = none →
      loadStyleGuide p fs = .error (.styleGuideNotFound p) ∧
      BErr.message (.styleGuideNotFound p) = "style guide not found: " ++ p) ∧
    (∀ (t p : String) (env : BEnv) (fs : FS) (e : BErr),
      ¬ t.utf8ByteSize > MaxTranscriptSize →
      loadStyleGuide p fs = .error e →
      (ConvertToBlog t p env fs).1 = .error e) := by
  refine ⟨fun fs => rfl, fun fs h => ?_, fun fs p hp hsg h => ?_, fun t p env fs e hsz h => ?_⟩
  · unfold loadStyleGuide
    rw [if_neg (by decide), h, if_pos rfl]
  · constructor
    · unfold loadStyleGuide
      rw [if_neg hp, h, if_neg hsg]
    · rfl
  · unfold ConvertToBlog
    rw [if_neg hsz, h]

/-- Witness for C1 at concrete inputs: the empty path, the missing
conventional path, and a missing explicitly supplied path. -/
theorem c1_witness :
    loadStyleGuide "" FS.empty = .ok getDefaultStyleGuide ∧
    loadStyleGuide "style_guide.md" FS.empty = .ok getDefaultStyleGuide ∧
    loadStyleGuide "custom.md" FS.empty = .error (.styleGuideNotFound "custom.md") ∧
    (ConvertToBlog "hello" "custom.md" ⟨.success "post"⟩ FS.empty).1 =
      .error (.styleGuideNotFound "custom.md") :=
  ⟨c1_styleGuide_fallback_vs_error.1 FS.empty,
   c1_styleGuide_fallback_vs_error.2.1 FS.empty rfl,
   (c1_styleGuide_fallback_vs_error.2.2.1 FS.empty "custom.md"
      (by decide) (by decide) rfl).1,
   c1_styleGuide_fallback_vs_error.2.2.2 "hello" "custom.md" ⟨.success "post"⟩
      FS.empty (.styleGuideNotFound "custom.md") (by decide)
      ((c1_styleGuide_fallback_vs_error.2.2.1 FS.empty "custom.md"
        (by decide) (by decide) rfl).1)⟩

/-- Claim C8: for every input video path whose (lowercased) extension is
outside the fixed allow-list, the program exits non-zero with the
unsupported-format message before invoking any external process: the
trace of external invocations is empty and the filesystem is untouched. -/
theorem c8_unsupported_extension_rejected
    (cli : CLI) (cwd : String) (tenv : TEnv) (benv : BEnv) (fs : FS)
    (h : validVideoExtensions.contains (toLowerStr (pathExt cli.videoPath)) = false) :
    main cli cwd tenv benv fs =
      (some (.unsupportedFormat (toLowerStr (pathExt cli.videoPath))), fs, []) ∧
    MainErr.message (.unsupportedFormat (toLowerStr (pathExt cli.videoPath))) =
      "unsupported video format '" ++ toLowerStr (pathExt cli.videoPath) ++
        "'. Supported formats: mp4, mov, avi, mkv, webm, m4v, wmv, flv" := by
  constructor
  · unfold main
    rw [if_pos (by rw [h]; exact Bool.false_ne_true)]
  · rfl

/-- Witness for C8: a ".txt" input is rejected with no external process
invoked. -/
theorem c8_witness :
    main ⟨"notes.txt", "base", "style_guide.md", "", false⟩ "/work"
        ⟨.statOk 5, true, some "w", "/home/u", "/tmp/a.wav", "/tmp/t",
          .success, .success, [(".txt", "hi")]⟩
        ⟨.success "post"⟩ ⟨[], ["/work"]⟩ =
      (some (.unsupportedFormat ".txt"), ⟨[], ["/work"]⟩, []) :=
  (c8_unsupported_extension_rejected _ _ _ _ _ (by decide)).1

/-- Claim C7: whenever the resolved output file already exists (as a file
or directory, the `os.Stat` check) and `--force` is absent, the program
exits non-zero before entering any pipeline stage: no external process is
invoked and the filesystem — in particular the existing output file — is
left unchanged. -/
theorem c7_existing_output_without_force
    (cli : CLI) (cwd : String) (tenv : TEnv) (benv : BEnv) (fs : FS)
    (hforce : cli.force = false)
    (hex : fs.statExists (resolvedOutputPath cli) = true) :
    ∃ e : MainErr, main cli cwd tenv benv fs = (some e, fs, []) := by
  unfold main
  by_cases h1 : validVideoExtensions.contains (toLowerStr (pathExt cli.videoPath)) = true
  · rw [if_neg (by rw [h1]; exact fun hc => hc rfl)]
    by_cases h2 : ValidModels.contains cli.model = true
    · rw [if_neg (by rw [h2]; exact fun hc => hc rfl)]
      cases hv : validateOutputPath cwd fs (resolvedOutputPath cli) with
      | error e => exact ⟨.invalidOutput e, by simp only [hv]⟩
      | ok u =>
        refine ⟨.outputExists (resolvedOutputPath cli), ?_⟩
        simp only [hv, hforce, hex, Bool.not_false, Bool.true_and, if_true]
    · rw [if_pos h2]
      exact ⟨.invalidModel cli.model, rfl⟩
  · rw [if_pos h1]
    exact ⟨.unsupportedFormat (toLowerStr (pathExt cli.videoPath)), rfl⟩

/-- Witness for C7: `talk.md` already holds "old", `--force` absent; the
program exits with the overwrite error, the file keeps its contents, and
no external process runs. -/
theorem c7_witness :
    ∃ e : MainErr,
      main ⟨"talk.mp4", "base", "style_guide.md", "", false⟩ "/work"
          ⟨.statOk 5, true, some "w", "/home/u", "/tmp/a.wav", "/tmp/t",
            .success, .success, [(".txt", "hi")]⟩
          ⟨.success "post"⟩ ⟨[("talk.md", "old")], ["/work"]⟩ =
        (some e, ⟨[("talk.md", "old")], ["/work"]⟩, []) :=
  c7_existing_output_without_force _ _ _ _ _ rfl (by decide)

theorem read_foldl_remove_append (ob : String) (es : List String) (fs : FS) (q : String) :
    (es.foldl (fun acc ext => acc.removeFile (ob ++ ext)) fs).read q =
      if ∃ e ∈ es, q = ob ++ e then none else fs.read q := by
  induction es generalizing fs with
  | nil => simp
  | cons x rest ih =>
    simp only [List.foldl]
    rw [ih]
    by_cases hq : ∃ e ∈ rest, q = ob ++ e
    · rw [if_pos hq]
      obtain ⟨e, he, hqe⟩ := hq
      rw [if_pos ⟨e, List.mem_cons_of_mem x he, hqe⟩]
    · rw [if_neg hq, FS.read_removeFile]
      by_cases hx : q = ob ++ x
      · rw [if_pos hx, if_pos ⟨x, List.mem_cons_self x rest, hx⟩]
      · rw [if_neg hx, if_neg ?_]
        rintro ⟨e, he, hqe⟩
        rcases List.mem_cons.mp he with rfl | hm
        · exact hx hqe
        · exact hq ⟨e, hm, hqe⟩

theorem read_cleanupWhisperOutputs (ob : String) (fs : FS) (q : String) :
    (cleanupWhisperOutputs ob fs).read q =
      if ∃ e ∈ whisperExtensions, q = ob ++ e then none else fs.read q :=
  read_foldl_remove_append ob whisperExtensions fs q

theorem read_finish_audio (ob ap : String) (fsx : FS) :
    ((cleanupWhisperOutputs ob fsx).removeFile ap).read ap = none := by
  rw [FS.read_removeFile, if_pos rfl]

theorem read_finish_ext (ob ap : String) (fsx : FS) (e : String)
    (he : e ∈ whisperExtensions) :
    ((cleanupWhisperOutputs ob fsx).removeFile ap).read (ob ++ e) = none := by
  rw [FS.read_removeFile]
  by_cases h : ob ++ e = ap
  · rw [if_pos h]
  · rw [if_neg h, read_cleanupWhisperOutputs, if_pos ⟨e, he, rfl⟩]

/-- Claim C2: on every exit path of `TranscribeVideo` — success, ordinary
failure, or timeout — the extracted audio file and every transcription
output extension variant (.txt, .vtt, .srt, .json, .csv, .lrc) are absent
from the filesystem when the call returns (the temp names `os.CreateTemp`
picks are fresh, so they are absent initially). -/
theorem c2_temp_files_cleaned
    (videoPath modelSize : String) (env : TEnv) (fs : FS)
    (ha : fs.read env.audioTempPath = none)
    (hw : ∀ e ∈ whisperExtensions, fs.read (env.outputBase ++ e) = none) :
    ((TranscribeVideo videoPath modelSize env fs).2.1).read env.audioTempPath = none ∧
    ∀ e ∈ whisperExtensions,
      ((TranscribeVideo videoPath modelSize env fs).2.1).read (env.outputBase ++ e) = none := by
  obtain ⟨vs, me, wcli, home, ap, ob, fo, wo, wouts⟩ := env
  cases vs with
  | notExists =>
    exact ⟨by simp only [TranscribeVideo]; exact ha,
           by simp only [TranscribeVideo]; exact hw⟩
  | accessError =>
    exact ⟨by simp only [TranscribeVideo]; exact ha,
           by simp only [TranscribeVideo]; exact hw⟩
  | statOk n =>
    by_cases hn : n > MaxVideoSize
    · constructor
      · simp only [TranscribeVideo, if_pos hn]
        exact ha
      · simp only [TranscribeVideo, if_pos hn]
        exact hw
    · by_cases hm : ¬ me = true
      · constructor
        · simp only [TranscribeVideo, if_neg hn, if_pos hm]
          exact ha
        · simp only [TranscribeVideo, if_neg hn, if_pos hm]
          exact hw
      · cases wcli with
        | none =>
          constructor
          · simp only [TranscribeVideo, if_neg hn, if_neg hm]
            exact ha
          · simp only [TranscribeVideo, if_neg hn, if_neg hm]
            exact hw
        | some cli =>
          cases fo with
          | failed d =>
            constructor
            · simp only [TranscribeVideo, extractAudio, if_neg hn, if_neg hm]
              rw [FS.read_removeFile, if_pos rfl]
            · simp only [TranscribeVideo, extractAudio, if_neg hn, if_neg hm]
              intro e he
              rw [FS.read_removeFile]
              by_cases hx : ob ++ e = ap
              · rw [if_pos hx]
              · rw [if_neg hx, FS.read_writeFile, if_neg hx]
                exact hw e he
          | timedOut =>
            constructor
            · simp only [TranscribeVideo, extractAudio, if_neg hn, if_neg hm]
              rw [FS.read_removeFile, if_pos rfl]
            · simp only [TranscribeVideo, extractAudio, if_neg hn, if_neg hm]
              intro e he
              rw [FS.read_removeFile]
              by_cases hx : ob ++ e = ap
              · rw [if_pos hx]
              · rw [if_neg hx, FS.read_writeFile, if_neg hx]
                exact hw e he
          | success =>
            cases wo with
            | timedOut =>
              exact ⟨by simp only [TranscribeVideo, extractAudio, if_neg hn, if_neg hm]
                        exact read_finish_audio ob ap _,
                     by simp only [TranscribeVideo, extractAudio, if_neg hn, if_neg hm]
                        exact fun e he => read_finish_ext ob ap _ e he⟩
            | failed d =>
              exact ⟨by simp only [TranscribeVideo, extractAudio, if_neg hn, if_neg hm]
                        exact read_finish_audio ob ap _,
                     by simp only [TranscribeVideo, extractAudio, if_neg hn, if_neg hm]
                        exact fun e he => read_finish_ext ob ap _ e he⟩
            | success =>
              constructor
              · simp only [TranscribeVideo, extractAudio, if_neg hn, if_neg hm]
                split
                · exact read_finish_audio ob ap _
                · split
                  · exact read_finish_audio ob ap _
                  · exact read_finish_audio ob ap _
              · simp only [TranscribeVideo, extractAudio, if_neg hn, if_neg hm]
                intro e he
                split
                · exact read_finish_ext ob ap _ e he
                · split
                  · exact read_finish_ext ob ap _ e he
                  · exact read_finish_ext ob ap _ e he

/-- Witness for C2: a run that reaches the no-speech failure leaves
neither the audio temp file nor the transcript variant behind. -/
theorem c2_witness :
    ((TranscribeVideo "talk.mp4" "base"
        ⟨.statOk 5, true, some "w", "/home/u", "/tmp/a.wav", "/tmp/t",
          .success, .success, [(".txt", "hello")]⟩
        FS.empty).2.1).read "/tmp/a.wav" = none ∧
    ((TranscribeVideo "talk.mp4" "base"
        ⟨.statOk 5, true, some "w", "/home/u", "/tmp/a.wav", "/tmp/t",
          .success, .success, [(".txt", "hello")]⟩
        FS.empty).2.1).read ("/tmp/t" ++ ".txt") = none :=
  ⟨(c2_temp_files_cleaned "talk.mp4" "base" _ FS.empty rfl (by decide)).1,
   (c2_temp_files_cleaned "talk.mp4" "base" _ FS.empty rfl (by decide)).2
     ".txt" (by decide)⟩

/-- Claim C5: every whisper invocation `TranscribeVideo` makes runs under
the bounded 60-minute timeout with the plain-text flag "-otxt" and the
"--no-timestamps" flag; and when that timeout elapses the operation
returns the distinct timeout error (a different constructor, with a
different message, from the generic process-failure error). -/
theorem c5_whisper_timeout_and_flags :
    (∀ (videoPath modelSize : String) (env : TEnv) (fs : FS) (call : ProcCall),
        call ∈ (TranscribeVideo videoPath modelSize env fs).2.2 →
        call.tool = .whisper →
        call.timeoutMinutes = WhisperTimeoutMinutes ∧
        "-otxt" ∈ call.args ∧ "--no-timestamps" ∈ call.args) ∧
    (∀ (videoPath modelSize : String) (env : TEnv) (fs : FS) (n : Nat) (c : String),
        env.videoStat = .statOk n → ¬ n > MaxVideoSize →
        env.modelExists = true → env.whisperCLI = some c →
        env.ffmpegOutcome = .success → env.whisperOutcome = .timedOut →
        (TranscribeVideo videoPath modelSize env fs).1 = .error .whisperTimedOut) ∧
    (∀ d : String, ¬ TErr.whisperTimedOut = TErr.whisperFailed d) ∧
    TErr.message .whisperTimedOut = "whisper transcription timed out after 1h0m0s" ∧
    (∀ d : String, ¬ TErr.message .whisperTimedOut = TErr.message (.whisperFailed d)) := by
  refine ⟨?_, ?_, fun d h => TErr.noConfusion h, rfl, ?_⟩
  · intro videoPath modelSize env fs call hmem htool
    obtain ⟨vs, me, wcli, home, ap, ob, fo, wo, wouts⟩ := env
    cases vs with
    | notExists => simp [TranscribeVideo] at hmem
    | accessError => simp [TranscribeVideo] at hmem
    | statOk n =>
      by_cases hn : n > MaxVideoSize
      · simp [TranscribeVideo, if_pos hn] at hmem
      · cases me with
        | false => simp [TranscribeVideo, if_neg hn] at hmem
        | true =>
          cases wcli with
          | none => simp [TranscribeVideo, if_neg hn] at hmem
          | some c =>
            cases fo with
            | failed d =>
              simp only [TranscribeVideo, extractAudio, if_neg hn,
                not_true, if_false, List.mem_singleton] at hmem
              rw [hmem] at htool
              exact absurd htool (by simp)
            | timedOut =>
              simp only [TranscribeVideo, extractAudio, if_neg hn,
                not_true, if_false, List.mem_singleton] at hmem
              rw [hmem] at htool
              exact absurd htool (by simp)
            | success =>
              cases wo with
              | timedOut =>
                simp only [TranscribeVideo, extractAudio, if_neg hn,
                  not_true, if_false,
                  List.singleton_append, List.mem_cons, List.mem_singleton] at hmem
                rcases hmem with h | h | h
                · rw [h] at htool
                  exact absurd htool (by simp)
                · rw [h]
                  exact ⟨rfl, by simp [whisperArgs], by simp [whisperArgs]⟩
                · exact absurd h (List.not_mem_nil call)
              | failed d =>
                simp only [TranscribeVideo, extractAudio, if_neg hn,
                  not_true, if_false,
                  List.singleton_append, List.mem_cons, List.mem_singleton] at hmem
                rcases hmem with h | h | h
                · rw [h] at htool
                  exact absurd htool (by simp)
                · rw [h]
                  exact ⟨rfl, by simp [whisperArgs], by simp [whisperArgs]⟩
                · exact absurd h (List.not_mem_nil call)
              | success =>
                simp only [TranscribeVideo, extractAudio, if_neg hn,
                  not_true, if_false] at hmem
                have hmem2 : call ∈ [(⟨.ffmpeg, ffmpegArgs videoPath ap,
                    FFmpegTimeoutMinutes⟩ : ProcCall)] ++
                    [⟨.whisper, whisperArgs (ModelPath home modelSize) ap ob,
                      WhisperTimeoutMinutes⟩] := by
                  revert hmem
                  split
                  · exact fun hmem => hmem
                  · split
                    · exact fun hmem => hmem
                    · exact fun hmem => hmem
                simp only [List.singleton_append, List.mem_cons,
                  List.mem_singleton] at hmem2
                rcases hmem2 with h | h | h
                · rw [h] at htool
                  exact absurd htool (by simp)
                · rw [h]
                  exact ⟨rfl, by simp [whisperArgs], by simp [whisperArgs]⟩
                · exact absurd h (List.not_mem_nil call)
  · intro videoPath modelSize env fs n c h1 hn h3 h4 h5 h6
    obtain ⟨vs, me, wcli, home, ap, ob, fo, wo, wouts⟩ := env
    simp only at h1 h3 h4 h5 h6
    subst h1 h3 h4 h5 h6
    simp only [TranscribeVideo, extractAudio, if_neg hn, not_true, if_false]
  · intro d h
    have hd : ("whisper transcription timed out after 1h0m0s").data =
        ("whisper transcription failed\nOutput: ").data ++ d.data := by
      have h2 := congrArg String.data h
      simp only [TErr.message, String.data_append] at h2
      exact h2
    have hlen : ("whisper transcription failed\nOutput: ").data.length = 37 := by
      decide
    have h37 : ("whisper transcription timed out after 1h0m0s").data.take 37 =
        ("whisper transcription failed\nOutput: ").data := by
      rw [hd, ← hlen, List.take_left]
    exact absurd h37 (by decide)

/-- Witness for C5: in a run whose whisper invocation times out, the
whisper call in the trace carries the 60-minute timeout and both output
flags, and the result is the distinct timeout error. -/
theorem c5_witness :
    (ProcCall.timeoutMinutes ⟨.whisper,
        whisperArgs (ModelPath "/home/u" "base") "/tmp/a.wav" "/tmp/t",
        WhisperTimeoutMinutes⟩ = WhisperTimeoutMinutes ∧
      "-otxt" ∈ whisperArgs (ModelPath "/home/u" "base") "/tmp/a.wav" "/tmp/t" ∧
      "--no-timestamps" ∈ whisperArgs (ModelPath "/home/u" "base") "/tmp/a.wav" "/tmp/t") ∧
    (TranscribeVideo "talk.mp4" "base"
        ⟨.statOk 5, true, some "w", "/home/u", "/tmp/a.wav", "/tmp/t",
          .success, .timedOut, []⟩ FS.empty).1 = .error .whisperTimedOut :=
  ⟨c5_whisper_timeout_and_flags.1 "talk.mp4" "base"
      ⟨.statOk 5, true, some "w", "/home/u", "/tmp/a.wav", "/tmp/t",
        .success, .timedOut, []⟩ FS.empty
      ⟨.whisper, whisperArgs (ModelPath "/home/u" "base") "/tmp/a.wav" "/tmp/t",
        WhisperTimeoutMinutes⟩ (by decide) rfl,
   c5_whisper_timeout_and_flags.2.1 "talk.mp4" "base"
      ⟨.statOk 5, true, some "w", "/home/u", "/tmp/a.wav", "/tmp/t",
        .success, .timedOut, []⟩ FS.empty 5 "w" rfl (by decide) rfl rfl rfl rfl⟩

/-- Claim C3: whenever the transcript whisper produces trims to the empty
string, `TranscribeVideo` returns the "no speech detected" error, the
pipeline `run` terminates with that failure wrapped in the transcription
stage label, and the output file is never written (its filesystem entry
is exactly what it was before the run; the inequality hypotheses say the
output path is not one of the fresh temp paths). -/
theorem c3_no_speech_fails_pipeline
    (videoPath modelSize stylePath outputPath : String)
    (benv : BEnv) (fs : FS) (n : Nat) (c home ap ob t : String)
    (hn : ¬ n > MaxVideoSize)
    (ht : trimSpace t = "")
    (ho1 : ¬ outputPath = ap) (ho2 : ¬ outputPath = ob)
    (hw : ∀ e ∈ whisperExtensions, ¬ outputPath = ob ++ e) :
    (TranscribeVideo videoPath modelSize
      ⟨.statOk n, true, some c, home, ap, ob, .success, .success, [(".txt", t)]⟩
      fs).1 = .error .noSpeech ∧
    TErr.message .noSpeech = "no speech detected in video" ∧
    (run videoPath modelSize stylePath outputPath
      ⟨.statOk n, true, some c, home, ap, ob, .success, .success, [(".txt", t)]⟩
      benv fs).1 = .error (.transcription .noSpeech) ∧
    ((run videoPath modelSize stylePath outputPath
      ⟨.statOk n, true, some c, home, ap, ob, .success, .success, [(".txt", t)]⟩
      benv fs).2.1).read outputPath = fs.read outputPath := by
  have htv : TranscribeVideo videoPath modelSize
      ⟨.statOk n, true, some c, home, ap, ob, .success, .success, [(".txt", t)]⟩ fs =
      (.error .noSpeech,
       (cleanupWhisperOutputs ob
         (((((fs.writeFile ap "").writeFile ap "PCM-WAV").writeFile ob
             "").removeFile ob).writeFile (ob ++ ".txt") t)).removeFile ap,
       [⟨.ffmpeg, ffmpegArgs videoPath ap, FFmpegTimeoutMinutes⟩,
        ⟨.whisper, whisperArgs (ModelPath home modelSize) ap ob,
          WhisperTimeoutMinutes⟩]) := by
    simp only [TranscribeVideo, extractAudio, if_neg hn, not_true, if_false,
      List.foldl]
    rw [FS.read_writeFile, if_pos rfl]
    simp only [if_pos ht, List.singleton_append]
  refine ⟨by rw [htv], rfl, ?_, ?_⟩
  · simp only [run, htv]
  · simp only [run, htv]
    rw [FS.read_removeFile, if_neg ho1, read_cleanupWhisperOutputs,
      if_neg (by rintro ⟨e, he, hq⟩; exact (hw e he) hq),
      FS.read_writeFile, if_neg (hw ".txt" (by decide)),
      FS.read_removeFile, if_neg ho2,
      FS.read_writeFile, if_neg ho2,
      FS.read_writeFile, if_neg ho1,
      FS.read_writeFile, if_neg ho1]

/-- Witness for C3: a whitespace-only whisper transcript makes the
pipeline fail with "no speech detected" and leaves `talk.md` unwritten. -/
theorem c3_witness :
    (TranscribeVideo "talk.mp4" "base"
      ⟨.statOk 5, true, some "w", "/home/u", "/tmp/a.wav", "/tmp/t",
        .success, .success, [(".txt", "  \n \t ")]⟩ FS.empty).1 =
      .error .noSpeech ∧
    (run "talk.mp4" "base" "style_guide.md" "talk.md"
      ⟨.statOk 5, true, some "w", "/home/u", "/tmp/a.wav", "/tmp/t",
        .success, .success, [(".txt", "  \n \t ")]⟩
      ⟨.success "post"⟩ FS.empty).1 = .error (.transcription .noSpeech) ∧
    ((run "talk.mp4" "base" "style_guide.md" "talk.md"
      ⟨.statOk 5, true, some "w", "/home/u", "/tmp/a.wav", "/tmp/t",
        .success, .success, [(".txt", "  \n \t ")]⟩
      ⟨.success "post"⟩ FS.empty).2.1).read "talk.md" = FS.empty.read "talk.md" :=
  ⟨(c3_no_speech_fails_pipeline "talk.mp4" "base" "style_guide.md" "talk.md"
      ⟨.success "post"⟩ FS.empty 5 "w" "/home/u" "/tmp/a.wav" "/tmp/t" "  \n \t "
      (by decide) (by decide) (by decide) (by decide) (by decide)).1,
   (c3_no_speech_fails_pipeline "talk.mp4" "base" "style_guide.md" "talk.md"
      ⟨.success "post"⟩ FS.empty 5 "w" "/home/u" "/tmp/a.wav" "/tmp/t" "  \n \t "
      (by decide) (by decide) (by decide) (by decide) (by decide)).2.2.1,
   (c3_no_speech_fails_pipeline "talk.mp4" "base" "style_guide.md" "talk.md"
      ⟨.success "post"⟩ FS.empty 5 "w" "/home/u" "/tmp/a.wav" "/tmp/t" "  \n \t "
      (by decide) (by decide) (by decide) (by decide) (by decide)).2.2.2⟩

theorem dropWhile_head_false (p : Char → Bool) (x : List Char) (a : Char)
    (t : List Char) (h : x.dropWhile p = a :: t) : p a = false := by
  induction x with
  | nil => simp at h
  | cons b r ih =>
    rw [List.dropWhile_cons] at h
    by_cases hb : p b
    · rw [if_pos hb] at h
      exact ih h
    · rw [if_neg hb] at h
      injection h with h1 h2
      subst h1
      simpa using hb

theorem dropWhile_self (p : Char → Bool) (x : List Char) :
    (x.dropWhile p).dropWhile p = x.dropWhile p := by
  cases h : x.dropWhile p with
  | nil => simp
  | cons a t =>
    have ha := dropWhile_head_false p x a t h
    simp [List.dropWhile_cons, ha]

theorem reverse_dropWhile_prefix (p : Char → Bool) (x : List Char) :
    ((x.reverse.dropWhile p).reverse) <+: x := by
  have hs : x.reverse.dropWhile p <:+ x.reverse := List.dropWhile_suffix p
  have h2 := List.reverse_prefix.mpr hs
  simpa using h2

theorem prefix_head_false (p : Char → Bool) (l l' : List Char) (h : l <+: l')
    (hl' : ∀ a t, l' = a :: t → p a = false) :
    ∀ a t, l = a :: t → p a = false := by
  obtain ⟨s, rfl⟩ := h
  intro a t hl
  subst hl
  exact hl' a (t ++ s) rfl

/-- `strings.TrimSpace` is idempotent: trimming an already trimmed string
changes nothing. -/
theorem trimSpace_idem (s : String) : trimSpace (trimSpace s) = trimSpace s := by
  unfold trimSpace
  congr 1
  show ((((((s.data.dropWhile goIsSpace).reverse.dropWhile
      goIsSpace).reverse).dropWhile goIsSpace).reverse.dropWhile
      goIsSpace).reverse) =
    ((s.data.dropWhile goIsSpace).reverse.dropWhile goIsSpace).reverse
  have hBA : (((s.data.dropWhile goIsSpace).reverse.dropWhile
      goIsSpace).reverse) <+: s.data.dropWhile goIsSpace :=
    reverse_dropWhile_prefix goIsSpace (s.data.dropWhile goIsSpace)
  have hstep1 : (((s.data.dropWhile goIsSpace).reverse.dropWhile
      goIsSpace).reverse).dropWhile goIsSpace =
      ((s.data.dropWhile goIsSpace).reverse.dropWhile goIsSpace).reverse := by
    cases hBv : ((s.data.dropWhile goIsSpace).reverse.dropWhile
        goIsSpace).reverse with
    | nil => simp
    | cons a t =>
      have ha : goIsSpace a = false :=
        prefix_head_false goIsSpace _ _ hBA
          (fun a t h => dropWhile_head_false goIsSpace s.data a t h) a t hBv
      simp [List.dropWhile_cons, ha]
  rw [hstep1, List.reverse_reverse, dropWhile_self]

/-- Claim C6: when all stages succeed, the final write persists exactly
the trimmed generation result followed by a single trailing newline to
the resolved output path; in particular, for input `talk.mp4` with
default flags, transcription yielding "hello world" and generation
yielding a markdown body, the file `talk.md` contains exactly that body
with one trailing newline. -/
theorem c6_success_writes_trimmed_output_newline :
    (∀ (videoPath modelSize stylePath outputPath : String) (tenv : TEnv)
        (fs fs1 : FS) (t1 : String) (tr1 : List ProcCall) (o g : String),
      TranscribeVideo videoPath modelSize tenv fs = (.ok t1, fs1, tr1) →
      ¬ t1.utf8ByteSize > MaxTranscriptSize →
      loadStyleGuide stylePath fs1 = .ok g →
      ¬ trimSpace o = "" →
      (run videoPath modelSize stylePath outputPath tenv ⟨.success o⟩ fs).1 =
        .ok () ∧
      ((run videoPath modelSize stylePath outputPath tenv
          ⟨.success o⟩ fs).2.1).read outputPath = some (trimSpace o ++ "\n")) ∧
    ((main ⟨"talk.mp4", "base", "style_guide.md", "", false⟩ "/work"
        ⟨.statOk 1000, true, some "/usr/local/bin/whisper-cpp", "/home/user",
          "/tmp/video-journal-audio-1.wav", "/tmp/video-journal-transcript-1",
          .success, .success, [(".txt", "hello world")]⟩
        ⟨.success "# Title\n\nBody"⟩ ⟨[], ["/work"]⟩).1 = none ∧
      ((main ⟨"talk.mp4", "base", "style_guide.md", "", false⟩ "/work"
        ⟨.statOk 1000, true, some "/usr/local/bin/whisper-cpp", "/home/user",
          "/tmp/video-journal-audio-1.wav", "/tmp/video-journal-transcript-1",
          .success, .success, [(".txt", "hello world")]⟩
        ⟨.success "# Title\n\nBody"⟩ ⟨[], ["/work"]⟩).2.1).read "talk.md" =
        some "# Title\n\nBody\n") := by
  constructor
  · intro videoPath modelSize stylePath outputPath tenv fs fs1 t1 tr1 o g
      htv hsz hsg ho
    have hcb : ConvertToBlog t1 stylePath ⟨.success o⟩ fs1 =
        (.ok (trimSpace o),
         [⟨.claude, ["-p", buildPrompt t1 g], ClaudeTimeoutMinutes⟩]) := by
      simp only [ConvertToBlog, if_neg hsz, hsg, if_neg ho]
    constructor
    · simp only [run, htv, hcb, trimSpace_idem, if_neg ho]
    · simp only [run, htv, hcb, trimSpace_idem, if_neg ho]
      rw [FS.read_writeFile, if_pos rfl]
  · exact ⟨by decide, by decide⟩

set_option maxRecDepth 16384 in
/-- Witness for C6's general part: a fully successful concrete run writes
the trimmed blog post with exactly one trailing newline. -/
theorem c6_witness :
    (run "talk.mp4" "base" "style_guide.md" "out.md"
      ⟨.statOk 5, true, some "w", "/home/u", "/tmp/a.wav", "/tmp/t",
        .success, .success, [(".txt", "hello world")]⟩
      ⟨.success "# Title\n\nBody"⟩ FS.empty).1 = .ok () ∧
    ((run "talk.mp4" "base" "style_guide.md" "out.md"
      ⟨.statOk 5, true, some "w", "/home/u", "/tmp/a.wav", "/tmp/t",
        .success, .success, [(".txt", "hello world")]⟩
      ⟨.success "# Title\n\nBody"⟩ FS.empty).2.1).read "out.md" =
      some (trimSpace "# Title\n\nBody" ++ "\n") :=
  c6_success_writes_trimmed_output_newline.1 "talk.mp4" "base" "style_guide.md"
    "out.md"
    ⟨.statOk 5, true, some "w", "/home/u", "/tmp/a.wav", "/tmp/t",
      .success, .success, [(".txt", "hello world")]⟩
    FS.empty ⟨[], []⟩ "hello world"
    [⟨.ffmpeg, ["-y", "-i", "talk.mp4", "-ar", "16000", "-ac", "1", "-c:a",
      "pcm_s16le", "/tmp/a.wav"], 30⟩,
     ⟨.whisper, ["-m", "/home/u/.cache/whisper/ggml-base.bin", "-f",
      "/tmp/a.wav", "-otxt", "-of", "/tmp/t", "--no-timestamps"], 60⟩]
    "# Title\n\nBody" getDefaultStyleGuide
    (by decide) (by decide) (by decide) (by decide)

theorem takeWhile_append_all (p : Char → Bool) (l1 l2 : List Char)
    (h : ∀ x ∈ l1, p x = true) :
    (l1 ++ l2).takeWhile p = l1 ++ l2.takeWhile p := by
  induction l1 with
  | nil => simp
  | cons a t ih =>
    simp only [List.cons_append, List.takeWhile_cons,
      h a (List.mem_cons_self a t), if_true]
    rw [ih (fun x hx => h x (List.mem_cons_of_mem a hx))]

theorem data_ne_nil_of_ne_empty (s : String) (h : ¬ s = "") : s.data ≠ [] :=
  fun h0 => h (String.ext_iff.mpr (by rw [h0]))

theorem pathBase_slash_append (dir file : String) (hne : ¬ file = "")
    (hns : ∀ c ∈ file.data, ¬ c = '/') :
    pathBase (dir ++ "/" ++ file) = file := by
  have hdata : (dir ++ "/" ++ file).data = dir.data ++ '/' :: file.data := by
    simp [String.data_append]
  have hP : ¬ (dir ++ "/" ++ file) = "" := by
    intro h0
    have h1 := congrArg String.data h0
    rw [hdata] at h1
    simp at h1
  have hfd : file.data ≠ [] := data_ne_nil_of_ne_empty file hne
  cases hrev : file.data.reverse with
  | nil => exact absurd (by simpa using congrArg List.reverse hrev) hfd
  | cons a rest =>
    have hamem : a ∈ file.data := by
      rw [← List.mem_reverse, hrev]
      exact List.mem_cons_self a rest
    have ha : ¬ a = '/' := hns a hamem
    unfold pathBase
    rw [if_neg hP]
    have hrevdata : (dir ++ "/" ++ file).data.reverse =
        a :: (rest ++ '/' :: dir.data.reverse) := by
      rw [hdata]
      simp [List.reverse_append, hrev]
    rw [hrevdata]
    rw [show (a :: (rest ++ '/' :: dir.data.reverse)).dropWhile
          (fun c => c = '/') = a :: (rest ++ '/' :: dir.data.reverse) by
        simp [List.dropWhile_cons, ha]]
    rw [if_neg (by simp)]
    simp only [List.reverse_reverse]
    have htake : (a :: (rest ++ '/' :: dir.data.reverse)).takeWhile
        (fun c => ¬ c = '/') = a :: rest := by
      have h1 : ∀ x ∈ a :: rest, (fun c => decide (¬ c = '/')) x = true := by
        intro x hx
        have : x ∈ file.data := by
          rw [← List.mem_reverse, hrev]
          exact hx
        simp [hns x this]
      have h2 := takeWhile_append_all (fun c => decide (¬ c = '/'))
        (a :: rest) ('/' :: dir.data.reverse) h1
      simp only [List.cons_append] at h2
      rw [h2]
      simp [List.takeWhile_cons]
    rw [htake]
    have : (a :: rest).reverse = file.data := by
      rw [← hrev, List.reverse_reverse]
    rw [this]

theorem pathBase_self (file : String) (hne : ¬ file = "")
    (hns : ∀ c ∈ file.data, ¬ c = '/') :
    pathBase file = file := by
  have hfd : file.data ≠ [] := data_ne_nil_of_ne_empty file hne
  cases hrev : file.data.reverse with
  | nil => exact absurd (by simpa using congrArg List.reverse hrev) hfd
  | cons a rest =>
    have hamem : a ∈ file.data := by
      rw [← List.mem_reverse, hrev]
      exact List.mem_cons_self a rest
    have ha : ¬ a = '/' := hns a hamem
    unfold pathBase
    rw [if_neg hne, hrev]
    rw [show (a :: rest).dropWhile (fun c => c = '/') = a :: rest by
      simp [List.dropWhile_cons, ha]]
    rw [if_neg (by simp)]
    simp only [List.reverse_reverse]
    have htake : (a :: rest).takeWhile (fun c => ¬ c = '/') = a :: rest := by
      refine List.takeWhile_eq_self_iff.mpr ?_
      intro x hx
      have : x ∈ file.data := by
        rw [← List.mem_reverse, hrev]
        exact hx
      simp [hns x this]
    rw [htake]
    rw [show (a :: rest).reverse = file.data by rw [← hrev, List.reverse_reverse]]

/-- Claim C10: when `--output` is omitted, the default output path is
computed from the base filename of the input path only — the directory
components are discarded — so "videos/talk.mp4" defaults to "talk.md",
and for any directory prefix the default equals the default for the bare
filename. -/
theorem c10_default_output_from_base_name :
    defaultOutputPath "videos/talk.mp4" = "talk.md" ∧
    resolvedOutputPath ⟨"videos/talk.mp4", "base", "style_guide.md", "", false⟩ =
      "talk.md" ∧
    ∀ dir file : String, ¬ file = "" → (∀ c ∈ file.data, ¬ c = '/') →
      defaultOutputPath (dir ++ "/" ++ file) = defaultOutputPath file := by
  refine ⟨by decide, by decide, fun dir file hne hns => ?_⟩
  unfold defaultOutputPath
  rw [pathBase_slash_append dir file hne hns, pathBase_self file hne hns]

/-- Witness for C10: the directory prefix "videos" is discarded for the
filename "talk.mp4". -/
theorem c10_witness :
    defaultOutputPath ("videos" ++ "/" ++ "talk.mp4") =
      defaultOutputPath "talk.mp4" :=
  c10_default_output_from_base_name.2.2 "videos" "talk.mp4"
    (by decide) (by decide)

/-- Counterexample to C4 as stated: with the backend ready to succeed
with non-empty output (no timeout, no non-zero exit, output "blog"
trimming non-empty), `ConvertToBlog` still returns an error, because the
explicitly supplied style-guide path "missing.md" does not exist.  So
the blog generation operation does not error *exactly* when the backend
times out, exits non-zero, or produces empty trimmed output. -/
theorem c4_counterexample :
    (ConvertToBlog "hi" "missing.md" ⟨.success "blog"⟩ FS.empty).1 =
      .error (.styleGuideNotFound "missing.md") ∧
    ¬ trimSpace "blog" = "" :=
  ⟨by decide, by decide⟩

/-- Claim C4, amended: provided the transcript does not exceed the
maximum transcript size and the style guide loads successfully, the blog
generation operation returns an error exactly when the backend invocation
times out, exits non-zero, fails to start, or produces output that is
empty after trimming; otherwise it returns the trimmed non-empty output.
In every error case the pipeline fails with the stage-labeled error and
the output file is not written (the filesystem is exactly the one the
transcription stage left). -/
theorem c4_amended_generation_error_cases :
    (∀ (t p : String) (env : BEnv) (fs : FS) (g : String),
      ¬ t.utf8ByteSize > MaxTranscriptSize →
      loadStyleGuide p fs = .ok g →
      ((∃ e, (ConvertToBlog t p env fs).1 = .error e) ↔
        (env.claudeOutcome = .timedOut ∨
         (∃ s, env.claudeOutcome = .exitError s) ∨
         env.claudeOutcome = .startError ∨
         (∃ o, env.claudeOutcome = .success o ∧ trimSpace o = ""))) ∧
      (∀ o, env.claudeOutcome = .success o → ¬ trimSpace o = "" →
        (ConvertToBlog t p env fs).1 = .ok (trimSpace o))) ∧
    (∀ (videoPath modelSize stylePath outputPath : String) (tenv : TEnv)
        (benv : BEnv) (fs fs1 : FS) (t1 : String) (tr1 : List ProcCall)
        (e : BErr),
      TranscribeVideo videoPath modelSize tenv fs = (.ok t1, fs1, tr1) →
      (ConvertToBlog t1 stylePath benv fs1).1 = .error e →
      (run videoPath modelSize stylePath outputPath tenv benv fs).1 =
        .error (.blogConversion e) ∧
      (run videoPath modelSize stylePath outputPath tenv benv fs).2.1 = fs1) := by
  constructor
  · intro t p env fs g hsz hsg
    obtain ⟨co⟩ := env
    cases co with
    | timedOut =>
      refine ⟨⟨fun _ => Or.inl rfl, fun _ => ⟨.claudeTimedOut, ?_⟩⟩, ?_⟩
      · simp only [ConvertToBlog, if_neg hsz, hsg]
      · intro o h
        exact ClaudeOutcome.noConfusion h
    | exitError s =>
      refine ⟨⟨fun _ => Or.inr (Or.inl ⟨s, rfl⟩),
        fun _ => ⟨.claudeExitError s, ?_⟩⟩, ?_⟩
      · simp only [ConvertToBlog, if_neg hsz, hsg]
      · intro o h
        exact ClaudeOutcome.noConfusion h
    | startError =>
      refine ⟨⟨fun _ => Or.inr (Or.inr (Or.inl rfl)),
        fun _ => ⟨.claudeStartError, ?_⟩⟩, ?_⟩
      · simp only [ConvertToBlog, if_neg hsz, hsg]
      · intro o h
        exact ClaudeOutcome.noConfusion h
    | success o =>
      by_cases ht : trimSpace o = ""
      · refine ⟨⟨fun _ => Or.inr (Or.inr (Or.inr ⟨o, rfl, ht⟩)),
          fun _ => ⟨.emptyOutput, ?_⟩⟩, ?_⟩
        · simp only [ConvertToBlog, if_neg hsz, hsg, if_pos ht]
        · intro o2 h ho2
          injection h with h2
          exact absurd (h2 ▸ ht) ho2
      · constructor
        · constructor
          · rintro ⟨e, he⟩
            simp only [ConvertToBlog, if_neg hsz, hsg, if_neg ht] at he
            exact Except.noConfusion he
          · rintro (h | ⟨s, h⟩ | h | ⟨o2, h, ho2⟩)
            · exact ClaudeOutcome.noConfusion h
            · exact ClaudeOutcome.noConfusion h
            · exact ClaudeOutcome.noConfusion h
            · injection h with h2
              exact absurd (h2 ▸ ho2) ht
        · intro o2 h ho2
          injection h with h2
          subst h2
          simp only [ConvertToBlog, if_neg hsz, hsg, if_neg ht]
  · intro videoPath modelSize stylePath outputPath tenv benv fs fs1 t1 tr1 e
      htv hcb1
    rcases hcb : ConvertToBlog t1 stylePath benv fs1 with ⟨r, tr2⟩
    rw [hcb] at hcb1
    simp only at hcb1
    subst hcb1
    exact ⟨by simp only [run, htv, hcb], by simp only [run, htv, hcb]⟩

set_option maxRecDepth 16384 in
/-- Witness for C4 (amended): a successful non-empty backend run returns
the trimmed output, and a failing generation stage (missing explicit
style guide) fails the pipeline with the stage label and writes nothing. -/
theorem c4_witness :
    (ConvertToBlog "hi" "" ⟨.success " ok "⟩ FS.empty).1 =
      .ok (trimSpace " ok ") ∧
    (run "talk.mp4" "base" "missing.md" "out.md"
      ⟨.statOk 5, true, some "w", "/home/u", "/tmp/a.wav", "/tmp/t",
        .success, .success, [(".txt", "hello world")]⟩
      ⟨.success "post"⟩ FS.empty).1 =
      .error (.blogConversion (.styleGuideNotFound "missing.md")) :=
  ⟨(c4_amended_generation_error_cases.1 "hi" "" ⟨.success " ok "⟩ FS.empty
      getDefaultStyleGuide (by decide) rfl).2 " ok " rfl (by decide),
   (c4_amended_generation_error_cases.2 "talk.mp4" "base" "missing.md" "out.md"
      ⟨.statOk 5, true, some "w", "/home/u", "/tmp/a.wav", "/tmp/t",
        .success, .success, [(".txt", "hello world")]⟩
      ⟨.success "post"⟩ FS.empty ⟨[], []⟩ "hello world"
      [⟨.ffmpeg, ["-y", "-i", "talk.mp4", "-ar", "16000", "-ac", "1", "-c:a",
        "pcm_s16le", "/tmp/a.wav"], 30⟩,
       ⟨.whisper, ["-m", "/home/u/.cache/whisper/ggml-base.bin", "-f",
        "/tmp/a.wav", "-otxt", "-of", "/tmp/t", "--no-timestamps"], 60⟩]
      (.styleGuideNotFound "missing.md") (by decide) (by decide)).1⟩

theorem commonPrefixLen_lt_of_not_isPrefixOf (base targ : List String)
    (h : base.isPrefixOf targ = false) :
    commonPrefixLen base targ < base.length := by
  induction base generalizing targ with
  | nil => simp [List.isPrefixOf] at h
  | cons a as ih =>
    cases targ with
    | nil =>
      simp only [commonPrefixLen, List.length_cons]
      exact Nat.succ_pos as.length
    | cons b bs =>
      by_cases hab : a = b
      · subst hab
        have h2 : as.isPrefixOf bs = false := by
          simpa [List.isPrefixOf] using h
        have h3 := ih bs h2
        simp only [commonPrefixLen, eq_self_iff_true, if_true, List.length_cons]
        omega
      · simp only [commonPrefixLen, if_neg hab, List.length_cons]
        exact Nat.succ_pos as.length

theorem commonPrefixLen_of_isPrefixOf (base targ : List String)
    (h : base.isPrefixOf targ = true) :
    commonPrefixLen base targ = base.length := by
  induction base generalizing targ with
  | nil => cases targ <;> simp [commonPrefixLen]
  | cons a as ih =>
    cases targ with
    | nil => simp [List.isPrefixOf] at h
    | cons b bs =>
      have hab : a = b ∧ as.isPrefixOf bs = true := by
        simpa [List.isPrefixOf, Bool.and_eq_true, beq_iff_eq] using h
      obtain ⟨hab1, h2⟩ := hab
      subst hab1
      simp only [commonPrefixLen, eq_self_iff_true, if_true, ih bs h2,
        List.length_cons]

theorem strStartsWith_append_left (A t u : String)
    (h : strStartsWith A u = true) : strStartsWith (A ++ t) u = true := by
  simp only [strStartsWith, List.isPrefixOf_iff_prefix, String.data_append] at h ⊢
  exact h.trans (List.prefix_append A.data t.data)

theorem relComponents_startsWith_dotdot (base targ : List String)
    (h : base.isPrefixOf targ = false) :
    strStartsWith (renderRel (relComponents base targ)) ".." = true := by
  have hlt := commonPrefixLen_lt_of_not_isPrefixOf base targ h
  obtain ⟨k, hk⟩ : ∃ k, base.length - commonPrefixLen base targ = k + 1 :=
    ⟨base.length - commonPrefixLen base targ - 1, by omega⟩
  unfold relComponents renderRel
  simp only [hk, List.replicate_succ, List.cons_append, List.isEmpty_cons,
    if_false, Bool.false_eq_true]
  cases hrest : List.replicate k ".." ++ targ.drop (commonPrefixLen base targ) with
  | nil =>
    show strStartsWith (joinSlash [".."]) ".." = true
    decide
  | cons c cs =>
    show strStartsWith (joinSlash (".." :: c :: cs)) ".." = true
    show strStartsWith (".." ++ "/" ++ joinSlash (c :: cs)) ".." = true
    exact strStartsWith_append_left (".." ++ "/") (joinSlash (c :: cs)) ".."
      (by decide)

theorem relComponents_of_isPrefixOf (base targ : List String)
    (h : base.isPrefixOf targ = true) :
    relComponents base targ = targ.drop base.length := by
  unfold relComponents
  simp [commonPrefixLen_of_isPrefixOf base targ h]

/-- Counterexample to C9 as stated: the output path "..foo.md" resolves,
against working directory "/work", to "/work/..foo.md" — inside the
working directory (the cwd elements are a prefix of its elements) — and
its parent directory "/work" exists, yet validation rejects it as path
traversal, because the rendering of the cwd-relative path is the filename
itself, which begins with the two characters "..". -/
theorem c9_counterexample :
    validateOutputPath "/work" ⟨[], ["/work"]⟩ "..foo.md" =
      .error (.traversal "..foo.md") ∧
    (cleanAbs (splitComponents "/work")).isPrefixOf
      (absComponents "/work" "..foo.md") = true ∧
    FS.statExists ⟨[], ["/work"]⟩
      (renderAbs (absComponents "/work" "..foo.md").dropLast) = true :=
  ⟨by decide, by decide, by decide⟩

/-- Claim C9, amended: output-path validation rejects every output path
whose absolute form resolves outside the working directory (as a
traversal error) and every path whose parent directory does not exist;
but acceptance is decided by the *rendered* cwd-relative path: a path is
rejected whenever that rendering begins with the characters "..", which
also covers in-directory filenames that begin with "..", and every path
whose rendering does not begin with ".." and whose parent exists is
accepted.  When the path is inside the working directory, the relative
rendering is exactly the element list below the working directory. -/
theorem c9_amended_output_validation :
    (∀ (cwd p : String) (fs : FS),
      (cleanAbs (splitComponents cwd)).isPrefixOf (absComponents cwd p) = false →
      validateOutputPath cwd fs p = .error (.traversal p)) ∧
    (∀ (cwd p : String) (fs : FS),
      strStartsWith (renderRel (relComponents (cleanAbs (splitComponents cwd))
        (absComponents cwd p))) ".." = false →
      fs.statExists (renderAbs (absComponents cwd p).dropLast) = false →
      validateOutputPath cwd fs p =
        .error (.parentMissing (renderAbs (absComponents cwd p).dropLast))) ∧
    (∀ (cwd p : String) (fs : FS),
      strStartsWith (renderRel (relComponents (cleanAbs (splitComponents cwd))
        (absComponents cwd p))) ".." = false →
      fs.statExists (renderAbs (absComponents cwd p).dropLast) = true →
      validateOutputPath cwd fs p = .ok ()) ∧
    (∀ cwd p : String,
      (cleanAbs (splitComponents cwd)).isPrefixOf (absComponents cwd p) = true →
      relComponents (cleanAbs (splitComponents cwd)) (absComponents cwd p) =
        (absComponents cwd p).drop (cleanAbs (splitComponents cwd)).length) := by
  refine ⟨fun cwd p fs h => ?_, fun cwd p fs h1 h2 => ?_, fun cwd p fs h1 h2 => ?_,
    fun cwd p h => relComponents_of_isPrefixOf _ _ h⟩
  · unfold validateOutputPath
    rw [if_pos (relComponents_startsWith_dotdot _ _ h)]
  · unfold validateOutputPath
    rw [if_neg (by rw [h1]; exact Bool.false_ne_true),
      if_neg (by rw [h2]; exact Bool.false_ne_true)]
  · unfold validateOutputPath
    rw [if_neg (by rw [h1]; exact Bool.false_ne_true), if_pos h2]

/-- Witness for C9 (amended): a genuine traversal is rejected, a plain
filename with existing parent is accepted, and a path under a missing
subdirectory is rejected for the missing parent. -/
theorem c9_witness :
    validateOutputPath "/work" ⟨[], ["/work"]⟩ "../etc/x.md" =
      .error (.traversal "../etc/x.md") ∧
    validateOutputPath "/work" ⟨[], ["/work"]⟩ "talk.md" = .ok () ∧
    validateOutputPath "/work" ⟨[], ["/work"]⟩ "sub/x.md" =
      .error (.parentMissing "/work/sub") :=
  ⟨c9_amended_output_validation.1 "/work" "../etc/x.md" ⟨[], ["/work"]⟩
      (by decide),
   c9_amended_output_validation.2.2.1 "/work" "talk.md" ⟨[], ["/work"]⟩
      (by decide) (by decide),
   c9_amended_output_validation.2.1 "/work" "sub/x.md" ⟨[], ["/work"]⟩
      (by decide) (by decide)⟩

end VideoJournal
